import Mathlib

/-!
Verification of the CommClimb annotation/upload core.

Shallow embedding of the React component state and handlers in
`src/unnamed/part_000` (the App component), of the fetch-based transcription
client in `src/unnamed/part_001` (lines 1-29), and of the data model in
`src/types.ts`.  Nondeterministic inputs of the original code
(`crypto.randomUUID()`, `Date.now()`, `URL.createObjectURL`, the selected
file, the gateway outcome) are explicit parameters.  JavaScript numbers that
the claims never do fractional arithmetic on are modelled as `Int`.
-/

namespace CommClimb

/-- src/types.ts lines 7-11: one sentence-level span of the transcript. -/
structure TranscriptSegment where
  startTime : Int
  endTime : Int
  text : String
  deriving DecidableEq

/-- src/types.ts lines 13-18: the NoteType enum. -/
inductive NoteType where
  | ORIGINAL
  | VIDEO
  | AUDIO
  | VERBAL
  deriving DecidableEq

/-- src/types.ts lines 20-32: a Note record; optional fields are `Option`.
Character indices are `Int` so that out-of-range (negative) inputs are
representable, as they are for JavaScript numbers. -/
structure Note where
  id : String
  projectId : String
  type : NoteType
  timestamp : Int
  transcriptSegmentIndex : Option Nat
  highlightStart : Option Int
  highlightEnd : Option Int
  color : Option String
  quote : Option String
  content : String
  createdAt : Int
  deriving DecidableEq

/-- src/types.ts lines 34-43: a Project record; the transient video file and
its blob URL are modelled by the optional URL. -/
structure Project where
  id : String
  userId : String
  name : String
  createdAt : Int
  videoUrl : Option String
  isTranscribing : Bool
  transcript : List TranscriptSegment
  deriving DecidableEq

/-- src/types.ts lines 1-5. -/
structure User where
  id : String
  email : String
  name : String
  deriving DecidableEq

/-- Modelled from the spec: the Key-Value Store (the storage service source is
not under src/).  Spec section 6: it "persists users, projects, notes as
serialized records" keyed by id; users are irrelevant to the claims. -/
structure Store where
  projects : List Project
  notes : List Note
  deriving DecidableEq

/-- Modelled from the spec: saving a record keyed by id into a key-value
store - replace the record with that key when present, append otherwise. -/
def upsertBy {α : Type} (key : α → String) (xs : List α) (x : α) : List α :=
  if xs.any (fun y => key y = key x) then
    xs.map (fun y => if key y = key x then x else y)
  else
    xs ++ [x]

/-- Lookup of a record by key. -/
def lookupBy {α : Type} (key : α → String) (xs : List α) (k : String) : Option α :=
  xs.find? (fun y => key y = k)

/-- Modelled from the spec: `saveProject(Project)` of the external store. -/
def Store.saveProject (st : Store) (p : Project) : Store :=
  { st with projects := upsertBy Project.id st.projects p }

/-- Modelled from the spec: `saveNote(Note)` of the external store. -/
def Store.saveNote (st : Store) (n : Note) : Store :=
  { st with notes := upsertBy Note.id st.notes n }

/-- Modelled from the spec: `deleteNote(id)` of the external store. -/
def Store.removeNote (st : Store) (i : String) : Store :=
  { st with notes := st.notes.filter (fun n => n.id ≠ i) }

/-- Modelled from the spec: `getNotes(projectId)` of the external store. -/
def Store.getNotes (st : Store) (pid : String) : List Note :=
  st.notes.filter (fun n => n.projectId = pid)

/-- part_000 line 34: the annotation tabs. -/
inductive Tab where
  | original
  | visual
  | audio
  | verbal
  deriving DecidableEq

/-- part_000 line 13: the top-level views. -/
inductive View where
  | auth
  | dashboard
  | project
  deriving DecidableEq

/-- The opaque media element behind `videoRef`: a current playback position
and a paused flag.  `pause()` sets the flag; assigning `currentTime` seeks. -/
structure Player where
  currentTime : Int
  paused : Bool
  deriving DecidableEq

/-- part_000 lines 10-34: the App component state the claims depend on,
together with the store and the media element (`player = none` models a null
`videoRef.current`). -/
structure AppState where
  user : Option User
  view : View
  projects : List Project
  currentProject : Option Project
  notes : List Note
  uploading : Bool
  editingProjectId : Option String
  editName : String
  activeTab : Tab
  player : Option Player
  store : Store
  deriving DecidableEq

/-- A selected file; only its name matters to the claims. -/
structure FileInfo where
  name : String
  deriving DecidableEq

/-- JavaScript `String.prototype.split(sep)` over the characters, with an
accumulator for the chunk in progress: `"a.b".split "." = ["a","b"]`,
`"".split "." = [""]`, `"a.".split "." = ["a",""]`. -/
def jsSplitGo (sep : Char) : List Char → List Char → List (List Char)
  | [], acc => [acc.reverse]
  | c :: rest, acc =>
    if c = sep then acc.reverse :: jsSplitGo sep rest [] else jsSplitGo sep rest (c :: acc)

/-- JavaScript `s.split(sep)` (single-character separator). -/
def jsSplit (sep : Char) (s : String) : List String :=
  (jsSplitGo sep s.data []).map String.mk

/-- part_000 line 93: `file.name.split('.')[0]`.  Index 0 of a JavaScript
split result always exists (splitting the empty string yields `[""]`). -/
def projectNameOfFile (fileName : String) : String :=
  (jsSplit '.' fileName).headD ""

/-- part_000 lines 90-99: the Project built on upload; `fid`, `now` and `url`
stand for `crypto.randomUUID()`, `Date.now()` and `URL.createObjectURL`. -/
def newProjectOf (u : User) (f : FileInfo) (fid : String) (now : Int) (url : String) : Project :=
  { id := fid
    userId := u.id
    name := projectNameOfFile f.name
    createdAt := now
    videoUrl := some url
    isTranscribing := true
    transcript := [] }

/-- part_000 lines 129-135: `openProject`.  A truthy `editingProjectId`
blocks opening; otherwise the project becomes current, its notes are loaded
from the store, the tab resets to Original and the view becomes `project`. -/
def openProject (s : AppState) (p : Project) : AppState :=
  match s.editingProjectId with
  | some _ => s
  | none =>
    { s with
        currentProject := some p
        notes := s.store.getNotes p.id
        activeTab := Tab.original
        view := View.project }

/-- part_000 lines 88-105: the part of `handleFileUpload` that runs before
the gateway call resolves - create the project with `isTranscribing = true`
and an empty transcript, save it, append it to the project list, open it. -/
def handleFileUploadPre (s : AppState) (u : User) (f : FileInfo) (fid : String) (now : Int)
    (url : String) : AppState :=
  let np := newProjectOf u f fid now url
  let s1 := { s with uploading := true }
  let s2 := { s1 with store := s1.store.saveProject np }
  let s3 := { s2 with projects := s2.projects ++ [np] }
  let s4 := openProject s3 np
  { s4 with uploading := false }

/-- part_000 lines 109-119: the success continuation of the upload - attach
the transcript, clear `isTranscribing`, update current project, list and
store. -/
def uploadSuccess (s : AppState) (np : Project) (transcript : List TranscriptSegment) : AppState :=
  let updated := { np with transcript := transcript, isTranscribing := false }
  let s1 := { s with currentProject := some updated }
  let s2 := { s1 with projects := s1.projects.map (fun p : Project => if p.id = updated.id then updated else p) }
  { s2 with store := s2.store.saveProject updated }

/-- part_000 lines 120-126: the catch branch of the upload - the error is
only logged; `isTranscribing` is cleared on the current project and in the
store, the transcript stays as created (empty).  The project list is not
touched here, exactly as in the source. -/
def uploadFailure (s : AppState) (np : Project) : AppState :=
  let failed := { np with isTranscribing := false }
  let s1 := { s with currentProject := some failed }
  { s1 with store := s1.store.saveProject failed }

/-- part_000 lines 84-127: the whole upload handler.  The gateway outcome is
the `Except` argument; the try/catch around the awaited call turns a
rejection into `uploadFailure`, so the handler itself always returns
`Except.ok` - no exception escapes to its caller. -/
def handleFileUpload (s : AppState) (file : Option FileInfo) (fid : String) (now : Int)
    (url : String) (gateway : Except String (List TranscriptSegment)) : Except String AppState :=
  match file, s.user with
  | some f, some u =>
    let np := newProjectOf u f fid now url
    let s1 := handleFileUploadPre s u f fid now url
    match gateway with
    | Except.ok transcript => Except.ok (uploadSuccess s1 np transcript)
    | Except.error _ => Except.ok (uploadFailure s1 np)
  | _, _ => Except.ok s

/-- part_000 lines 167-193: `addNote`.  The fresh note id and the creation
time are the `nid` and `now` parameters.  The source performs no validation
of any field: whenever a project is open it builds the note from the
arguments verbatim, saves it and appends it to the in-memory list. -/
def addNote (s : AppState) (nid : String) (now : Int) (content : String) (time : Int)
    (type : NoteType) (segmentIdx : Option Nat) (quote : Option String)
    (hlStart : Option Int) (hlEnd : Option Int) (color : Option String) : AppState :=
  match s.currentProject with
  | none => s
  | some proj =>
    let newNote : Note :=
      { id := nid
        projectId := proj.id
        type := type
        timestamp := time
        transcriptSegmentIndex := segmentIdx
        highlightStart := hlStart
        highlightEnd := hlEnd
        color := color
        quote := quote
        content := content
        createdAt := now }
    { s with store := s.store.saveNote newNote, notes := s.notes ++ [newNote] }

/-- part_000 lines 195-198: `deleteNote` - remove from the store and filter
the in-memory list. -/
def deleteNote (s : AppState) (i : String) : AppState :=
  { s with store := s.store.removeNote i, notes := s.notes.filter (fun n => n.id ≠ i) }

/-- part_000 lines 200-205: `jumpToTime` - assign `currentTime` on the media
element when it exists; `.play()` was removed per requirement, so nothing
else changes. -/
def jumpToTime (s : AppState) (time : Int) : AppState :=
  match s.player with
  | none => s
  | some p => { s with player := some { p with currentTime := time } }

/-- part_000 lines 46-51: the effect with dependency `[activeTab]` - when the
active tab is `verbal` and the media element exists, `pause()` it. -/
def activeTabEffect (s : AppState) : AppState :=
  match s.player with
  | none => s
  | some p =>
    if s.activeTab = Tab.verbal then { s with player := some { p with paused := true } } else s

/-- `setActiveTab t` followed by the `[activeTab]` effect re-running. -/
def switchTab (s : AppState) (t : Tab) : AppState :=
  activeTabEffect { s with activeTab := t }

/-- JavaScript `String.prototype.trim` restricted to the ASCII whitespace the
claims involve. -/
def isJsWhitespace (c : Char) : Bool :=
  c = ' ' || c = '\t' || c = '\n' || c = '\r'

/-- JavaScript `s.trim()`. -/
def jsTrim (s : String) : String :=
  String.mk (((s.data.dropWhile isJsWhitespace).reverse.dropWhile isJsWhitespace).reverse)

/-- part_000 lines 144-156: `handleSaveRename`.  The truthiness test
`if (project && editName.trim())` is: a project with the edited id was found
and the trimmed name is non-empty; only then is the rename persisted.  Edit
mode always ends. -/
def handleSaveRename (s : AppState) : AppState :=
  match s.editingProjectId with
  | none => s
  | some pid =>
    let s1 :=
      match s.projects.find? (fun p => p.id = pid) with
      | none => s
      | some project =>
        if jsTrim s.editName = "" then s
        else
          let updated := { project with name := jsTrim s.editName }
          { s with
              store := s.store.saveProject updated
              projects := s.projects.map (fun p : Project => if p.id = updated.id then updated else p) }
    { s1 with editingProjectId := none, editName := "" }

/-- part_000 lines 425-464: the four note-creating callbacks wired in the
project view.  The Original/Visual/Audio lists pass the note text and a time;
the transcript view's `onAddHighlight` (lines 459-461) always passes `0` as
the time and `NoteType.VERBAL` as the kind. -/
inductive NoteEvent where
  | addOriginal (content : String) (time : Int)
  | addVisual (content : String) (time : Int)
  | addAudio (content : String) (time : Int)
  | addHighlight (idx : Nat) (content : String) (quote : String) (hlStart : Int) (hlEnd : Int)
      (color : String)

/-- Dispatch of a note-creating callback to `addNote`, exactly as wired in
part_000 lines 430, 440, 450 and 459-461. -/
def dispatchNoteEvent (s : AppState) (nid : String) (now : Int) : NoteEvent → AppState
  | NoteEvent.addOriginal c t => addNote s nid now c t NoteType.ORIGINAL none none none none none
  | NoteEvent.addVisual c t => addNote s nid now c t NoteType.VIDEO none none none none none
  | NoteEvent.addAudio c t => addNote s nid now c t NoteType.AUDIO none none none none none
  | NoteEvent.addHighlight idx c q a b col =>
      addNote s nid now c 0 NoteType.VERBAL (some idx) (some q) (some a) (some b) (some col)

/-- The spec's validity condition on a VERBAL note, stated in its words:
the verbal-required fields (segment index, highlight bounds, quote) are
present and `0 ≤ highlightStart ≤ highlightEnd ≤ length` of the referenced
segment's text. -/
def verbalNoteOk (transcript : List TranscriptSegment) (n : Note) : Bool :=
  match n.transcriptSegmentIndex, n.highlightStart, n.highlightEnd, n.quote with
  | some idx, some a, some b, some _ =>
    match transcript[idx]? with
    | some seg => decide (0 ≤ a) && decide (a ≤ b) && decide (b ≤ (seg.text.length : Int))
    | none => false
  | _, _, _, _ => false

/-- The spec-side name computation for C10: the portion of the file name
strictly before the first dot. -/
def specNameBeforeFirstDot (fileName : String) : String :=
  String.mk (fileName.data.takeWhile (fun c => c ≠ '.'))

/-- The C9 invariant: every VERBAL note in the list has timestamp 0. -/
def verbalTimestampsZero (notes : List Note) : Prop :=
  ∀ n ∈ notes, n.type = NoteType.VERBAL → n.timestamp = 0

/-- part_001 lines 1-29 model: a response to the fetch in the transcription
client, as seen by `generateTranscript`: an HTTP status and the result of
`response.json()` - `none` when the body is malformed JSON (so `json()`
rejects), otherwise the parsed value.  A parsed value is either an array of
segments or some other JSON object, such as the error object
`{"error": ...}` that the API route sends with a non-2xx status. -/
inductive JsValue where
  | segments (xs : List TranscriptSegment)
  | errObj (error : String)
  deriving DecidableEq

/-- A fetch response: HTTP status plus parsed-or-malformed body. -/
structure JsonResponse where
  status : Nat
  body : Option JsValue
  deriving DecidableEq

/-- part_001 lines 15-29: the fetch-based `generateTranscript` client.  It
awaits `response.json()` and returns the parsed value; it never inspects
`response.status` or `response.ok`.  The only rejection it can produce after
receiving a response is the `SyntaxError` from parsing a malformed body. -/
def generateTranscript (resp : JsonResponse) : Except String JsValue :=
  match resp.body with
  | none => Except.error "SyntaxError"
  | some v => Except.ok v

/-- 2xx test on an HTTP status, for stating C4. -/
def is2xx (status : Nat) : Bool :=
  decide (200 ≤ status) && decide (status < 300)

/-! ### Helper lemmas about the store and the split -/

theorem find?_map_upsert {α : Type} (key : α → String) (x : α) :
    ∀ xs : List α, xs.any (fun y => key y = key x) = true →
      (xs.map (fun y => if key y = key x then x else y)).find? (fun y => key y = key x)
        = some x := by
  intro xs
  induction xs with
  | nil => intro h; simp at h
  | cons y ys ih =>
    intro h
    by_cases hy : key y = key x
    · simp [List.find?, hy]
    · have hany : ys.any (fun y => key y = key x) = true := by
        simp [List.any_cons, hy] at h
        simpa using h
      simp [List.find?, hy, ih hany]

theorem find?_append_new {α : Type} (key : α → String) (x : α) :
    ∀ xs : List α, xs.any (fun y => key y = key x) = false →
      (xs ++ [x]).find? (fun y => key y = key x) = some x := by
  intro xs
  induction xs with
  | nil => intro _; simp [List.find?]
  | cons y ys ih =>
    intro h
    simp [List.any_cons] at h
    simp [List.find?, h.1, ih (by simpa using h.2)]

/-- After an upsert, looking up the saved record's key finds the record. -/
theorem lookupBy_upsertBy {α : Type} (key : α → String) (xs : List α) (x : α) :
    lookupBy key (upsertBy key xs x) (key x) = some x := by
  unfold lookupBy upsertBy
  by_cases hany : xs.any (fun y => key y = key x) = true
  · simpa [hany] using find?_map_upsert key x xs hany
  · simp only [Bool.not_eq_true] at hany
    simpa [hany] using find?_append_new key x xs hany

/-- Everything in an upsert result is the saved record or was there before. -/
theorem mem_upsertBy {α : Type} (key : α → String) (xs : List α) (x n : α)
    (h : n ∈ upsertBy key xs x) : n = x ∨ n ∈ xs := by
  unfold upsertBy at h
  by_cases hany : xs.any (fun y => key y = key x) = true
  · rw [if_pos hany] at h
    rcases List.mem_map.mp h with ⟨y, hy, hyn⟩
    by_cases hk : key y = key x
    · left; rw [if_pos hk] at hyn; exact hyn.symm
    · right; rw [if_neg hk] at hyn; exact hyn ▸ hy
  · rw [if_neg hany] at h
    rcases List.mem_append.mp h with hl | hr
    · right; exact hl
    · left; simpa using hr

/-- The head of a JavaScript split is the accumulator followed by the portion
of the rest strictly before the first separator. -/
theorem jsSplitGo_headD (sep : Char) :
    ∀ cs acc : List Char,
      (jsSplitGo sep cs acc).headD [] = acc.reverse ++ cs.takeWhile (fun c => c ≠ sep) := by
  intro cs
  induction cs with
  | nil => intro acc; simp [jsSplitGo]
  | cons c rest ih =>
    intro acc
    by_cases hc : c = sep
    · simp [jsSplitGo, hc, List.takeWhile_cons]
    · rw [show jsSplitGo sep (c :: rest) acc = jsSplitGo sep rest (c :: acc) by
        simp [jsSplitGo, hc]]
      rw [ih (c :: acc)]
      simp [List.takeWhile_cons, hc]

/-- A JavaScript split is never the empty list. -/
theorem jsSplitGo_ne_nil (sep : Char) : ∀ (cs acc : List Char), jsSplitGo sep cs acc ≠ [] := by
  intro cs
  induction cs with
  | nil => intro acc; simp [jsSplitGo]
  | cons c rest ih =>
    intro acc
    by_cases hc : c = sep
    · simp [jsSplitGo, hc]
    · simp [jsSplitGo, hc, ih]

/-! ### Concrete example states used by counterexamples and witnesses -/

/-- A logged-in user. -/
def exUser : User := { id := "u1", email := "ada@example.org", name := "Ada" }

/-- A one-segment transcript saying "Hello" (5 characters). -/
def exSeg : TranscriptSegment := { startTime := 0, endTime := 2, text := "Hello" }

/-- A finished project holding `exSeg`. -/
def exProject : Project :=
  { id := "p1"
    userId := "u1"
    name := "demo"
    createdAt := 0
    videoUrl := some "blob:demo"
    isTranscribing := false
    transcript := [exSeg] }

/-- A store holding just `exProject`. -/
def exStore : Store := { projects := [exProject], notes := [] }

/-- The app opened on `exProject`, media playing, no edit in progress. -/
def exProjState : AppState :=
  { user := some exUser
    view := View.project
    projects := [exProject]
    currentProject := some exProject
    notes := []
    uploading := false
    editingProjectId := none
    editName := ""
    activeTab := Tab.verbal
    player := some { currentTime := 1, paused := false }
    store := exStore }

/-- The app on the dashboard, ready for an upload. -/
def exDashState : AppState :=
  { user := some exUser
    view := View.dashboard
    projects := [exProject]
    currentProject := none
    notes := []
    uploading := false
    editingProjectId := none
    editName := ""
    activeTab := Tab.original
    player := none
    store := exStore }

/-- The app with `exProject` in rename-edit mode and a whitespace-only edit
buffer. -/
def exEditState : AppState :=
  { exDashState with editingProjectId := some "p1", editName := "   " }

/-- A file picked in the upload dialog. -/
def exFile : FileInfo := { name := "demo.mp4" }

/-- The VERBAL note that `addNote` creates from out-of-range highlight bounds
(start 3, end 2) against `exProjState`. -/
def exBadNote : Note :=
  { id := "note-1"
    projectId := "p1"
    type := NoteType.VERBAL
    timestamp := 0
    transcriptSegmentIndex := some 0
    highlightStart := some 3
    highlightEnd := some 2
    color := none
    quote := some "llo"
    content := "needs work"
    createdAt := 10 }

/-! ### Claim theorems -/

/-- C1 counterexample: calling `addNote` with kind VERBAL and highlight
bounds start 3, end 2 (start > end, violating the claimed bounds) against a
project whose transcript is the single segment "Hello" does not fail and
does create the note: the resulting note set is exactly the out-of-range
VERBAL note, refuting both the claimed `ValidationError` rejection and the
claimed creation-time bounds invariant. -/
theorem C1_counterexample :
    (addNote exProjState "note-1" 10 "needs work" 0 NoteType.VERBAL
        (some 0) (some "llo") (some 3) (some 2) none).notes = [exBadNote]
    ∧ exBadNote.type = NoteType.VERBAL
    ∧ verbalNoteOk exProject.transcript exBadNote = false := by
  exact ⟨by decide, rfl, by decide⟩

/-- C1 (amended): `addNote` performs no validation at all.  Whenever a
project is open it appends to the note set (and persists) a note built
verbatim from its arguments - even when the verbal-required fields are
missing or the highlight bounds are out of range - and it never fails, so
the VERBAL bounds invariant is not enforced at creation time. -/
theorem C1_addNote_unvalidated (s : AppState) (proj : Project) (nid : String) (now : Int)
    (content : String) (time : Int) (type : NoteType) (segmentIdx : Option Nat)
    (quote : Option String) (hlStart hlEnd : Option Int) (color : Option String)
    (h : s.currentProject = some proj) :
    (addNote s nid now content time type segmentIdx quote hlStart hlEnd color).notes
      = s.notes ++ [{ id := nid, projectId := proj.id, type := type, timestamp := time,
                      transcriptSegmentIndex := segmentIdx, highlightStart := hlStart,
                      highlightEnd := hlEnd, color := color, quote := quote,
                      content := content, createdAt := now }] := by
  simp [addNote, h]

/-- Witness for C1 (amended) at the concrete out-of-range input. -/
theorem C1_addNote_unvalidated_witness :
    (addNote exProjState "note-1" 10 "needs work" 0 NoteType.VERBAL (some 0) (some "llo")
        (some 3) (some 2) none).notes = exProjState.notes ++ [exBadNote] :=
  C1_addNote_unvalidated exProjState exProject "note-1" 10 "needs work" 0 NoteType.VERBAL
    (some 0) (some "llo") (some 3) (some 2) none rfl

/-- C2: when the gateway call rejects, the upload handler returns normally
(`Except.ok`, no exception escapes), its result is exactly the catch branch
applied to the pre-gateway state (only a logged diagnostic, no retry), the
stored project with the upload's id has `isTranscribing = false`, its
transcript is still empty, and the same failed project is the current one. -/
theorem C2_upload_failure (s : AppState) (f : FileInfo) (u : User) (fid url emsg : String)
    (now : Int) (hu : s.user = some u) :
    handleFileUpload s (some f) fid now url (Except.error emsg)
      = Except.ok (uploadFailure (handleFileUploadPre s u f fid now url)
          (newProjectOf u f fid now url))
    ∧ (uploadFailure (handleFileUploadPre s u f fid now url)
          (newProjectOf u f fid now url)).currentProject
        = some { newProjectOf u f fid now url with isTranscribing := false }
    ∧ lookupBy Project.id
        (uploadFailure (handleFileUploadPre s u f fid now url)
          (newProjectOf u f fid now url)).store.projects fid
        = some { newProjectOf u f fid now url with isTranscribing := false }
    ∧ ({ newProjectOf u f fid now url with isTranscribing := false } : Project).transcript
        = [] := by
  refine ⟨?_, rfl, ?_, rfl⟩
  · simp [handleFileUpload, hu]
  · simpa [uploadFailure, Store.saveProject] using
      lookupBy_upsertBy Project.id (handleFileUploadPre s u f fid now url).store.projects
        { newProjectOf u f fid now url with isTranscribing := false }

/-- Witness for C2 at a concrete rejected upload. -/
theorem C2_upload_failure_witness :
    handleFileUpload exDashState (some exFile) "p2" 7 "blob:demo2" (Except.error "boom")
      = Except.ok (uploadFailure (handleFileUploadPre exDashState exUser exFile "p2" 7 "blob:demo2")
          (newProjectOf exUser exFile "p2" 7 "blob:demo2"))
    ∧ (uploadFailure (handleFileUploadPre exDashState exUser exFile "p2" 7 "blob:demo2")
          (newProjectOf exUser exFile "p2" 7 "blob:demo2")).currentProject
        = some { newProjectOf exUser exFile "p2" 7 "blob:demo2" with isTranscribing := false }
    ∧ lookupBy Project.id
        (uploadFailure (handleFileUploadPre exDashState exUser exFile "p2" 7 "blob:demo2")
          (newProjectOf exUser exFile "p2" 7 "blob:demo2")).store.projects "p2"
        = some { newProjectOf exUser exFile "p2" 7 "blob:demo2" with isTranscribing := false }
    ∧ ({ newProjectOf exUser exFile "p2" 7 "blob:demo2" with isTranscribing := false }
        : Project).transcript = [] :=
  C2_upload_failure exDashState exFile exUser "p2" "blob:demo2" "boom" 7 rfl

/-- C3: for a file selection by a logged-in user (with no rename edit in
progress), the pre-gateway part of the upload handler creates a project with
`isTranscribing = true` and an empty transcript, appends it to the visible
project list, opens it (it becomes the current project and the view becomes
`project`), and persists exactly this state to the store; the whole handler
factors through this pre-gateway state for every gateway outcome, so all of
it happens before the gateway call resolves. -/
theorem C3_upload_creates_project (s : AppState) (f : FileInfo) (u : User) (fid url : String)
    (now : Int) (g : Except String (List TranscriptSegment))
    (hu : s.user = some u) (hedit : s.editingProjectId = none) :
    (newProjectOf u f fid now url).isTranscribing = true
    ∧ (newProjectOf u f fid now url).transcript = []
    ∧ (handleFileUploadPre s u f fid now url).projects
        = s.projects ++ [newProjectOf u f fid now url]
    ∧ (handleFileUploadPre s u f fid now url).currentProject
        = some (newProjectOf u f fid now url)
    ∧ (handleFileUploadPre s u f fid now url).view = View.project
    ∧ lookupBy Project.id (handleFileUploadPre s u f fid now url).store.projects fid
        = some (newProjectOf u f fid now url)
    ∧ handleFileUpload s (some f) fid now url g
        = Except.ok (match g with
            | Except.ok ts =>
                uploadSuccess (handleFileUploadPre s u f fid now url)
                  (newProjectOf u f fid now url) ts
            | Except.error _ =>
                uploadFailure (handleFileUploadPre s u f fid now url)
                  (newProjectOf u f fid now url)) := by
  refine ⟨rfl, rfl, ?_, ?_, ?_, ?_, ?_⟩
  · simp [handleFileUploadPre, openProject, hedit]
  · simp [handleFileUploadPre, openProject, hedit]
  · simp [handleFileUploadPre, openProject, hedit]
  · simpa [handleFileUploadPre, openProject, hedit, Store.saveProject] using
      lookupBy_upsertBy Project.id s.store.projects (newProjectOf u f fid now url)
  · cases g <;> simp [handleFileUpload, hu]

/-- Witness for C3 at a concrete upload with a succeeding gateway. -/
theorem C3_upload_creates_project_witness :
    (newProjectOf exUser exFile "p2" 7 "blob:demo2").isTranscribing = true
    ∧ (newProjectOf exUser exFile "p2" 7 "blob:demo2").transcript = []
    ∧ (handleFileUploadPre exDashState exUser exFile "p2" 7 "blob:demo2").projects
        = exDashState.projects ++ [newProjectOf exUser exFile "p2" 7 "blob:demo2"]
    ∧ (handleFileUploadPre exDashState exUser exFile "p2" 7 "blob:demo2").currentProject
        = some (newProjectOf exUser exFile "p2" 7 "blob:demo2")
    ∧ (handleFileUploadPre exDashState exUser exFile "p2" 7 "blob:demo2").view = View.project
    ∧ lookupBy Project.id
        (handleFileUploadPre exDashState exUser exFile "p2" 7 "blob:demo2").store.projects "p2"
        = some (newProjectOf exUser exFile "p2" 7 "blob:demo2")
    ∧ handleFileUpload exDashState (some exFile) "p2" 7 "blob:demo2" (Except.ok [exSeg])
        = Except.ok (uploadSuccess
            (handleFileUploadPre exDashState exUser exFile "p2" 7 "blob:demo2")
            (newProjectOf exUser exFile "p2" 7 "blob:demo2") [exSeg]) :=
  C3_upload_creates_project exDashState exFile exUser "p2" "blob:demo2" 7
    (Except.ok [exSeg]) rfl rfl

/-- C4: the fetch-based `generateTranscript` never inspects the HTTP status.
At the failing input - the API route's own failure response, status 500 with
JSON body `\x7b"error": "Transcription failed"\x7d` - the call resolves and
returns the parsed error object as if it were a transcript, instead of
rejecting as the claim states.  Only a malformed JSON body makes the call
reject. -/
theorem C4_status_ignored :
    is2xx 500 = false
    ∧ generateTranscript { status := 500, body := some (JsValue.errObj "Transcription failed") }
        = Except.ok (JsValue.errObj "Transcription failed")
    ∧ generateTranscript { status := 200, body := none } = Except.error "SyntaxError" :=
  ⟨rfl, rfl, rfl⟩

/-- C5: `deleteNote` removes exactly the notes carrying the given id, keeps
every other note in its relative order (the result is a sublist), is
idempotent (a second delete of the same id changes nothing and does not
fail), and deleting an id absent from the in-memory note set (resp. from the
stored note set) leaves that set unchanged. -/
theorem C5_deleteNote_idempotent (s : AppState) (i : String) :
    (deleteNote s i).notes.Sublist s.notes
    ∧ (∀ n, n ∈ (deleteNote s i).notes ↔ n ∈ s.notes ∧ n.id ≠ i)
    ∧ deleteNote (deleteNote s i) i = deleteNote s i
    ∧ ((∀ n ∈ s.notes, n.id ≠ i) → (deleteNote s i).notes = s.notes)
    ∧ ((∀ n ∈ s.store.notes, n.id ≠ i) → (deleteNote s i).store.notes = s.store.notes) := by
  refine ⟨List.filter_sublist _, ?_, ?_, ?_, ?_⟩
  · intro n
    simp [deleteNote, List.mem_filter]
  · simp [deleteNote, Store.removeNote, List.filter_filter, Bool.and_self]
  · intro h
    simp only [deleteNote]
    exact List.filter_eq_self.mpr (by intro a ha; simpa using h a ha)
  · intro h
    simp only [deleteNote, Store.removeNote]
    exact List.filter_eq_self.mpr (by intro a ha; simpa using h a ha)

/-- Witness for C5 at a concrete absent id. -/
theorem C5_deleteNote_idempotent_witness :
    (deleteNote exProjState "zzz").notes = exProjState.notes
    ∧ (deleteNote exProjState "zzz").store.notes = exProjState.store.notes :=
  ⟨(C5_deleteNote_idempotent exProjState "zzz").2.2.2.1 (by decide),
   (C5_deleteNote_idempotent exProjState "zzz").2.2.2.2 (by decide)⟩

/-- The app with `exProject` in rename-edit mode and a non-blank edit
buffer. -/
def exEditState2 : AppState :=
  { exDashState with editingProjectId := some "p1", editName := " Talk " }

/-- C6: committing a rename while a project is in edit mode: a blank
(empty or whitespace-only after trimming) name changes neither the in-memory
project list nor the store (the prior name stays intact); a non-blank name
updates the project's name to the trimmed input in the list and persists it
to the store; in both cases edit mode ends. -/
theorem C6_rename_blank_kept (s : AppState) (pid : String) (p : Project)
    (hedit : s.editingProjectId = some pid)
    (hp : s.projects.find? (fun q => q.id = pid) = some p) :
    (jsTrim s.editName = "" →
      (handleSaveRename s).projects = s.projects ∧ (handleSaveRename s).store = s.store)
    ∧ (jsTrim s.editName ≠ "" →
      (handleSaveRename s).projects
          = s.projects.map
              (fun q : Project => if q.id = p.id then { p with name := jsTrim s.editName } else q)
        ∧ lookupBy Project.id (handleSaveRename s).store.projects pid
            = some { p with name := jsTrim s.editName })
    ∧ (handleSaveRename s).editingProjectId = none := by
  have hpid : p.id = pid := by simpa using List.find?_some hp
  refine ⟨?_, ?_, ?_⟩
  · intro hb
    exact ⟨by simp [handleSaveRename, hedit, hp, hb], by simp [handleSaveRename, hedit, hp, hb]⟩
  · intro hb
    constructor
    · simp [handleSaveRename, hedit, hp, hb]
    · rw [← hpid]
      simpa [handleSaveRename, hedit, hp, hb, Store.saveProject] using
        lookupBy_upsertBy Project.id s.store.projects { p with name := jsTrim s.editName }
  · simp [handleSaveRename, hedit]

/-- Witness for C6: the blank commit at `exEditState` keeps everything, and
the non-blank commit at `exEditState2` persists the trimmed name. -/
theorem C6_rename_blank_kept_witness :
    (handleSaveRename exEditState).projects = exEditState.projects
    ∧ (handleSaveRename exEditState).store = exEditState.store
    ∧ (handleSaveRename exEditState).editingProjectId = none
    ∧ lookupBy Project.id (handleSaveRename exEditState2).store.projects "p1"
        = some { exProject with name := "Talk" } :=
  ⟨((C6_rename_blank_kept exEditState "p1" exProject rfl rfl).1 (by decide)).1,
   ((C6_rename_blank_kept exEditState "p1" exProject rfl rfl).1 (by decide)).2,
   (C6_rename_blank_kept exEditState "p1" exProject rfl rfl).2.2,
   ((C6_rename_blank_kept exEditState2 "p1" exProject rfl rfl).2.1 (by decide)).2⟩

/-- Any note added by `addNote` whose kind forces timestamp 0 preserves the
C9 invariant on both the in-memory and the stored note sets. -/
theorem addNote_verbalTimestampsZero (s : AppState) (nid : String) (now : Int)
    (content : String) (time : Int) (type : NoteType) (segmentIdx : Option Nat)
    (quote : Option String) (hlStart hlEnd : Option Int) (color : Option String)
    (hmem : verbalTimestampsZero s.notes) (hstore : verbalTimestampsZero s.store.notes)
    (hok : type = NoteType.VERBAL → time = 0) :
    verbalTimestampsZero
      (addNote s nid now content time type segmentIdx quote hlStart hlEnd color).notes
    ∧ verbalTimestampsZero
      (addNote s nid now content time type segmentIdx quote hlStart hlEnd color).store.notes := by
  rcases hcp : s.currentProject with _ | proj
  · constructor
    · simpa [addNote, hcp] using hmem
    · simpa [addNote, hcp] using hstore
  · constructor
    · intro n hn ht
      simp only [addNote, hcp] at hn
      rcases List.mem_append.mp hn with h1 | h2
      · exact hmem n h1 ht
      · have hn2 := List.mem_singleton.mp h2
        subst hn2
        exact hok ht
    · intro n hn ht
      simp only [addNote, hcp, Store.saveNote] at hn
      rcases mem_upsertBy Note.id s.store.notes _ n hn with h1 | h2
      · subst h1
        exact hok ht
      · exact hstore n h2 ht

/-- C7: switching the active tab to `verbal` pauses the media element,
whatever its prior playback state: after the transition the player is in its
prior state with the paused flag set. -/
theorem C7_verbal_tab_pauses (s : AppState) (p : Player) (hp : s.player = some p) :
    (switchTab s Tab.verbal).player = some { p with paused := true } := by
  simp [switchTab, activeTabEffect, hp]

/-- Witness for C7: a playing player is paused by the switch. -/
theorem C7_verbal_tab_pauses_witness :
    (switchTab exProjState Tab.verbal).player = some { currentTime := 1, paused := true } :=
  C7_verbal_tab_pauses exProjState { currentTime := 1, paused := false } rfl

/-- C8: `jumpToTime` sets the media element's current position to the given
time, preserves the paused flag (a paused player stays paused), and changes
nothing else in the application state: restoring the player field alone
recovers the original state. -/
theorem C8_seek_sets_time_only (s : AppState) (t : Int) (p : Player) (hp : s.player = some p) :
    (jumpToTime s t).player = some { currentTime := t, paused := p.paused }
    ∧ { jumpToTime s t with player := s.player } = s := by
  cases s
  cases hp
  simp [jumpToTime]

/-- Witness for C8 at a concrete paused-state seek. -/
theorem C8_seek_sets_time_only_witness :
    (jumpToTime exProjState 42).player = some { currentTime := 42, paused := false }
    ∧ { jumpToTime exProjState 42 with player := exProjState.player } = exProjState :=
  C8_seek_sets_time_only exProjState 42 { currentTime := 1, paused := false } rfl

/-- C9: across every note-creating callback of the application, the
invariant "every VERBAL note has timestamp 0" is preserved on both the
in-memory and the stored note sets: the transcript view's highlight callback
always passes 0 as the time, and the other callbacks never create VERBAL
notes, so a VERBAL note's timestamp never encodes a playback position. -/
theorem C9_verbal_timestamp_zero (s : AppState) (nid : String) (now : Int) (e : NoteEvent)
    (hmem : verbalTimestampsZero s.notes) (hstore : verbalTimestampsZero s.store.notes) :
    verbalTimestampsZero (dispatchNoteEvent s nid now e).notes
    ∧ verbalTimestampsZero (dispatchNoteEvent s nid now e).store.notes := by
  cases e with
  | addOriginal c t =>
    exact addNote_verbalTimestampsZero s nid now c t NoteType.ORIGINAL none none none none none
      hmem hstore (by intro h; cases h)
  | addVisual c t =>
    exact addNote_verbalTimestampsZero s nid now c t NoteType.VIDEO none none none none none
      hmem hstore (by intro h; cases h)
  | addAudio c t =>
    exact addNote_verbalTimestampsZero s nid now c t NoteType.AUDIO none none none none none
      hmem hstore (by intro h; cases h)
  | addHighlight idx c q a b col =>
    exact addNote_verbalTimestampsZero s nid now c 0 NoteType.VERBAL (some idx) (some q)
      (some a) (some b) (some col) hmem hstore (fun _ => rfl)

/-- Witness for C9 at a concrete highlight creation. -/
theorem C9_verbal_timestamp_zero_witness :
    verbalTimestampsZero (dispatchNoteEvent exProjState "note-1" 10
      (NoteEvent.addHighlight 0 "needs work" "llo" 3 2 "red")).notes
    ∧ verbalTimestampsZero (dispatchNoteEvent exProjState "note-1" 10
      (NoteEvent.addHighlight 0 "needs work" "llo" 3 2 "red")).store.notes :=
  C9_verbal_timestamp_zero exProjState "note-1" 10
    (NoteEvent.addHighlight 0 "needs work" "llo" 3 2 "red")
    (by intro n hn; simp [exProjState] at hn)
    (by intro n hn; simp [exProjState, exStore] at hn)

/-- C10: the new project's name is the portion of the uploaded file's name
strictly before the first dot - `file.name.split('.')[0]` equals the
take-while-not-dot of the name for every file name, and in particular
"demo.mp4" yields "demo", "my.talk.mp4" yields "my", and a name starting
with a dot yields the empty string. -/
theorem C10_project_name_first_dot (fileName : String) :
    projectNameOfFile fileName = specNameBeforeFirstDot fileName
    ∧ projectNameOfFile "demo.mp4" = "demo"
    ∧ projectNameOfFile "my.talk.mp4" = "my"
    ∧ projectNameOfFile ".gitignore" = "" := by
  refine ⟨?_, rfl, rfl, rfl⟩
  unfold projectNameOfFile specNameBeforeFirstDot jsSplit
  rcases hgo : jsSplitGo '.' fileName.data [] with _ | ⟨x, xs⟩
  · exact absurd hgo (jsSplitGo_ne_nil '.' fileName.data [])
  · have h := jsSplitGo_headD '.' fileName.data []
    rw [hgo] at h
    simp at h
    simp [h]

end CommClimb
